import Mathlib

/-!
Verification of the `create-go-skeleton` scaffolding CLI (`main.go`).

The program is a one-shot interactive generator: it collects a
`ProjectConfig`, confirms, copies an embedded template tree into a fresh
directory, rewrites the template's module path, prunes files belonging to
unselected options, and generates a devcontainer compose document and env
files.  Below, each Go helper is shallowly embedded as a pure Lean
function over `List Char` / `String` and a simple filesystem model, and
the specification's claims are settled against these embeddings.

Strings: Go `strings` functions are modelled over `List Char`.  Unicode
case mapping and Unicode white space are restricted to their ASCII
behaviour (the only inputs the tool manipulates are ASCII identifiers and
ASCII template text).
-/

/-- Model of `strings.HasPrefix pat` as a check that `pat` starts the list. -/
def startsWith : List Char → List Char → Bool
  | [], _ => true
  | _ :: _, [] => false
  | p :: ps, c :: cs => p == c && startsWith ps cs

/-- Model of `strings.Contains s pat`: some (possibly empty) occurrence of
`pat` appears in `s` as a contiguous segment. -/
def hasOccur (pat : List Char) : List Char → Bool
  | [] => pat.isEmpty
  | c :: cs => startsWith pat (c :: cs) || hasOccur pat cs

/-- Model of `strings.HasSuffix s suf`. -/
def goHasSuffix (suf s : List Char) : Bool :=
  startsWith suf.reverse s.reverse

/-- Fuel-driven scanner behind `goReplaceAll`: scan `s` left to right; at a
match of `pat` emit `rep` and resume after the matched segment, exactly as
Go's `strings.Replace` with `n = -1` does (non-overlapping, leftmost).
`fuel > s.length` suffices for the scan to run to completion. -/
def replaceAllFuel (pat rep : List Char) : Nat → List Char → List Char
  | 0, s => s
  | Nat.succ fuel, s =>
    if !pat.isEmpty && startsWith pat s then
      rep ++ replaceAllFuel pat rep fuel (s.drop pat.length)
    else
      match s with
      | [] => []
      | c :: cs => c :: replaceAllFuel pat rep fuel cs

/-- Model of `strings.ReplaceAll s pat rep` for a non-empty `pat` (every
pattern the program replaces is a non-empty constant; Go's special
empty-pattern insertion behaviour is never exercised and is modelled as the
identity). -/
def goReplaceAll (pat rep s : List Char) : List Char :=
  if pat.isEmpty then s else replaceAllFuel pat rep (s.length + 1) s

/-- String-level wrapper of `goReplaceAll`. -/
def goReplaceAllStr (pat rep s : String) : String :=
  ⟨goReplaceAll pat.toList rep.toList s.toList⟩

/-- String-level wrapper of `hasOccur`. -/
def hasOccurStr (pat s : String) : Bool :=
  hasOccur pat.toList s.toList

/-- The template's hard-coded default module identifier
(`oldModule` in `updateModulePaths`). -/
def oldModule : String := "github.com/rahmatrdn/go-skeleton"

/-- Content transformation applied by `updateModulePaths` to each matching
file: replace every occurrence of `oldModule` with the user's module path. -/
def rewriteContent (modulePath content : String) : String :=
  goReplaceAllStr oldModule modulePath content

theorem startsWith_of_hasOccur_cons (pat : List Char) (c : Char) (cs : List Char)
    (h : hasOccur pat (c :: cs) = false) :
    startsWith pat (c :: cs) = false ∧ hasOccur pat cs = false := by
  have h2 := h
  simp only [hasOccur, Bool.or_eq_false_iff] at h2
  exact h2

theorem hasOccur_nil_of_ne (pat : List Char) (h : pat.isEmpty = false) :
    hasOccur pat [] = false := by
  simp [hasOccur, h]

theorem startsWith_nil_right (pat : List Char) (h : pat.isEmpty = false) :
    startsWith pat [] = false := by
  cases pat with
  | nil => simp at h
  | cons p ps => rfl

/-- If `pat` occurs nowhere in `s`, the replacement scanner leaves `s`
untouched, whatever the fuel. -/
theorem replaceAllFuel_eq_self_of_no_occur (pat rep : List Char) (fuel : Nat) :
    ∀ s : List Char, hasOccur pat s = false →
      replaceAllFuel pat rep fuel s = s := by
  induction fuel with
  | zero => intro s _; rfl
  | succ fuel ih =>
    intro s hs
    have hpat : (!pat.isEmpty && startsWith pat s) = false := by
      cases s with
      | nil =>
        cases hp : pat.isEmpty with
        | true => simp [hp]
        | false => simp [hp, startsWith_nil_right pat hp]
      | cons c cs =>
        rcases startsWith_of_hasOccur_cons pat c cs hs with ⟨h1, _⟩
        simp [h1]
    rw [replaceAllFuel.eq_def]
    simp only [hpat, Bool.false_eq_true, if_false]
    cases s with
    | nil => rfl
    | cons c cs =>
      rcases startsWith_of_hasOccur_cons pat c cs hs with ⟨_, h2⟩
      simp [ih cs h2]

/-- If `pat` occurs nowhere in `s`, `goReplaceAll` is the identity on `s`. -/
theorem goReplaceAll_eq_self_of_no_occur (pat rep s : List Char)
    (h : hasOccur pat s = false) : goReplaceAll pat rep s = s := by
  unfold goReplaceAll
  cases hp : pat.isEmpty with
  | true => simp
  | false => simp [replaceAllFuel_eq_self_of_no_occur pat rep (s.length + 1) s h]

/-- ASCII fragment of `unicode.IsSpace`, the character class trimmed by
`strings.TrimSpace`: space, tab, newline, vertical tab, form feed,
carriage return. -/
def isGoSpace (c : Char) : Bool :=
  c.toNat == 32 || c.toNat == 9 || c.toNat == 10 ||
    c.toNat == 11 || c.toNat == 12 || c.toNat == 13

/-- The ASCII upper-case letters `A`..`Z`. -/
def isAsciiUpper (c : Char) : Bool :=
  65 ≤ c.toNat && c.toNat ≤ 90

/-- ASCII fragment of the character mapping of `strings.ToLower`: an ASCII
upper-case letter is shifted down into `a`..`z`, everything else is kept. -/
def asciiLower (c : Char) : Char :=
  if isAsciiUpper c then Char.ofNat (c.toNat + 32) else c

/-- Model of `strings.ToLower` (ASCII fragment). -/
def goToLower (s : List Char) : List Char :=
  s.map asciiLower

/-- Model of `strings.TrimSpace`: drop white space from both ends. -/
def goTrimSpace (s : List Char) : List Char :=
  ((s.dropWhile isGoSpace).reverse.dropWhile isGoSpace).reverse

/-- Decision taken by `promptBool` on one input line: Go computes
`strings.TrimSpace(strings.ToLower(input))` and compares it with `"y"`
and `"yes"`. -/
def promptBool (input : String) : Bool :=
  let t := goTrimSpace (goToLower input.toList)
  t == "y".toList || t == "yes".toList

/-- Decision taken by `confirm` on one input line: as `promptBool`, but the
empty (trimmed, lowered) line is also accepted. -/
def confirm (input : String) : Bool :=
  let t := goTrimSpace (goToLower input.toList)
  t == [] || t == "y".toList || t == "yes".toList

theorem char_toNat_ofNat_valid (n : Nat) (h : n < 55296) :
    (Char.ofNat n).toNat = n := by
  unfold Char.ofNat
  rw [dif_pos (Or.inl h)]
  unfold Char.ofNatAux Char.toNat
  simp [UInt32.toNat]

theorem toNat_asciiLower_of_upper (c : Char) (h : isAsciiUpper c = true) :
    (asciiLower c).toNat = c.toNat + 32 := by
  have hb : 65 ≤ c.toNat ∧ c.toNat ≤ 90 := by
    simpa [isAsciiUpper] using h
  rw [asciiLower, if_pos h, char_toNat_ofNat_valid]
  omega

theorem asciiLower_eq_self_of_not_upper (c : Char) (h : isAsciiUpper c = false) :
    asciiLower c = c := by
  rw [asciiLower, if_neg (by simp [h])]

theorem isGoSpace_eq_false_of_ge (c : Char) (h : 33 ≤ c.toNat) :
    isGoSpace c = false := by
  simp only [isGoSpace, Bool.or_eq_false_iff, beq_eq_false_iff_ne, ne_eq]
  omega

theorem isAsciiUpper_eq_false_of_bounds (c : Char)
    (h : c.toNat < 65 ∨ 90 < c.toNat) : isAsciiUpper c = false := by
  simp only [isAsciiUpper, Bool.and_eq_false_iff, decide_eq_false_iff_not, not_le]
  omega

/-- Lowering a character does not change whether it is white space. -/
theorem isGoSpace_asciiLower (c : Char) :
    isGoSpace (asciiLower c) = isGoSpace c := by
  cases h : isAsciiUpper c with
  | false => rw [asciiLower_eq_self_of_not_upper c h]
  | true =>
    have hb : 65 ≤ c.toNat ∧ c.toNat ≤ 90 := by
      simpa [isAsciiUpper] using h
    rw [isGoSpace_eq_false_of_ge c (by omega),
      isGoSpace_eq_false_of_ge _ (by rw [toNat_asciiLower_of_upper c h]; omega)]

/-- Lowering a character twice is lowering it once. -/
theorem isAsciiUpper_asciiLower (c : Char) :
    isAsciiUpper (asciiLower c) = false := by
  cases h : isAsciiUpper c with
  | false => rw [asciiLower_eq_self_of_not_upper c h]; exact h
  | true =>
    have hb : 65 ≤ c.toNat ∧ c.toNat ≤ 90 := by
      simpa [isAsciiUpper] using h
    exact isAsciiUpper_eq_false_of_bounds _
      (by rw [toNat_asciiLower_of_upper c h]; omega)

theorem dropWhile_map_of_comp (p : Char → Bool) (f : Char → Char)
    (hpf : ∀ c, p (f c) = p c) :
    ∀ l : List Char, (l.map f).dropWhile p = (l.dropWhile p).map f := by
  intro l
  induction l with
  | nil => rfl
  | cons c cs ih =>
    simp only [List.map_cons, List.dropWhile_cons, hpf c]
    cases h : p c with
    | true => simpa [h] using ih
    | false => simp [h]

/-- Trimming and lowering commute: `strings.TrimSpace ∘ strings.ToLower`
equals `strings.ToLower ∘ strings.TrimSpace`. -/
theorem goTrimSpace_goToLower (s : List Char) :
    goTrimSpace (goToLower s) = goToLower (goTrimSpace s) := by
  unfold goTrimSpace goToLower
  rw [dropWhile_map_of_comp isGoSpace asciiLower isGoSpace_asciiLower s,
    ← List.map_reverse,
    dropWhile_map_of_comp isGoSpace asciiLower isGoSpace_asciiLower,
    ← List.map_reverse]

/-- C7: `promptBool` answers `true` exactly when the trimmed input is a
case-insensitive `y` or `yes`; every other line, the empty line included,
answers `false`. -/
theorem promptBool_true_iff (input : String) :
    promptBool input = true ↔
      (goToLower (goTrimSpace input.toList) = "y".toList ∨
        goToLower (goTrimSpace input.toList) = "yes".toList) := by
  unfold promptBool
  rw [goTrimSpace_goToLower]
  simp

/-- C9: `confirm` answers `true` exactly when the trimmed, lowercased input
line is empty, `y`, or `yes`; in particular the empty line is accepted by
`confirm` but refused by `promptBool` — opposite defaults. -/
theorem confirm_true_iff_and_empty_default :
    (∀ input : String, confirm input = true ↔
      (goToLower (goTrimSpace input.toList) = [] ∨
        goToLower (goTrimSpace input.toList) = "y".toList ∨
        goToLower (goTrimSpace input.toList) = "yes".toList)) ∧
    confirm "" = true ∧ promptBool "" = false := by
  refine ⟨fun input => ?_, by decide, by decide⟩
  unfold confirm
  rw [goTrimSpace_goToLower]
  simp [or_assoc]

/-- The configuration collected by `collectConfiguration` (`ProjectConfig`
in `main.go`). -/
structure ProjectConfig where
  ProjectName : String
  ProjectPath : String
  ModulePath : String
  Database : String
  UseRedis : Bool
  UseRabbitMQ : Bool

/-- `sanitizeName` from `main.go`: lower-case the name, then replace every
`-` with `_`. -/
def sanitizeName (name : String) : String :=
  ⟨goReplaceAll "-".toList "_".toList (goToLower name.toList)⟩

/-- The database name `updateEnvFiles` substitutes for the
`PROJECT_DB_NAME` placeholder (`dbName := sanitizeName(config.ProjectName)`). -/
def envDbName (config : ProjectConfig) : String :=
  sanitizeName config.ProjectName

/-- Content transformation of `updateEnvFiles` on
`.devcontainer/.env.devcontainer`. -/
def updateEnvContent (config : ProjectConfig) (content : String) : String :=
  goReplaceAllStr "PROJECT_DB_NAME" (envDbName config) content

/-- Per-character effect of replacing the single-character pattern `-`
by `_`. -/
def dashToUnderscore (c : Char) : Char :=
  if c == '-' then '_' else c

theorem replaceAllFuel_single (a b : Char) (fuel : Nat) :
    ∀ s : List Char, s.length < fuel →
      replaceAllFuel [a] [b] fuel s =
        s.map (fun c => if c == a then b else c) := by
  induction fuel with
  | zero => intro s h; omega
  | succ fuel ih =>
    intro s h
    cases s with
    | nil => rfl
    | cons c cs =>
      have hlen : cs.length < fuel := by
        simp only [List.length_cons] at h; omega
      have hcond :
          (!([a] : List Char).isEmpty && startsWith [a] (c :: cs)) = (a == c) := by
        simp [startsWith]
      rw [replaceAllFuel.eq_def]
      simp only [hcond]
      cases hac : a == c with
      | true =>
        rw [if_pos rfl]
        have hca : (c == a) = true := by
          have hx : a = c := eq_of_beq hac
          subst hx; exact hac
        show b :: replaceAllFuel [a] [b] fuel cs =
          List.map (fun d => if d == a then b else d) (c :: cs)
        rw [List.map_cons, ih cs hlen, if_pos hca]
      | false =>
        rw [if_neg (by decide)]
        have hca : (c == a) = false := by
          cases hy : c == a with
          | false => rfl
          | true =>
            have hx : c = a := eq_of_beq hy
            rw [hx] at hac
            simp at hac
        show c :: replaceAllFuel [a] [b] fuel cs =
          List.map (fun d => if d == a then b else d) (c :: cs)
        rw [List.map_cons, ih cs hlen, if_neg (by simp [hca])]

/-- `sanitizeName` acts character-wise: lower, then map `-` to `_`. -/
theorem sanitizeName_toList (name : String) :
    (sanitizeName name).toList =
      (goToLower name.toList).map dashToUnderscore := by
  show goReplaceAll "-".toList "_".toList (goToLower name.toList) = _
  rw [goReplaceAll, if_neg (by decide)]
  exact replaceAllFuel_single '-' '_' _ _ (Nat.lt_succ_self _)

theorem dashToUnderscore_ne_dash (c : Char) :
    (dashToUnderscore c == '-') = false := by
  unfold dashToUnderscore
  cases h : c == '-' with
  | true => simp
  | false => simp [h]

theorem isAsciiUpper_dashToUnderscore_asciiLower (c : Char) :
    isAsciiUpper (dashToUnderscore (asciiLower c)) = false := by
  unfold dashToUnderscore
  cases h : asciiLower c == '-' with
  | true => rw [if_pos rfl]; decide
  | false => rw [if_neg (by decide)]; exact isAsciiUpper_asciiLower c

theorem asciiLower_eq_self_of_dash_or_lowered (c : Char) :
    asciiLower (dashToUnderscore (asciiLower c)) =
      dashToUnderscore (asciiLower c) :=
  asciiLower_eq_self_of_not_upper _ (isAsciiUpper_dashToUnderscore_asciiLower c)

theorem dashToUnderscore_idem (c : Char) :
    dashToUnderscore (dashToUnderscore c) = dashToUnderscore c := by
  unfold dashToUnderscore
  cases h : c == '-' with
  | true => simp
  | false => simp [h]

/-- C10: the database name embedded in the generated compose document and
substituted into `.devcontainer/.env.devcontainer` is
`sanitizeName(config.ProjectName)` — the project name lowercased with every
`-` replaced by `_`; it contains no hyphen and no ASCII upper-case letter,
and sanitizing it again changes nothing. -/
theorem envDbName_sanitized (config : ProjectConfig) :
    envDbName config = sanitizeName config.ProjectName ∧
    ((envDbName config).toList.all
        fun c => !(c == '-') && !isAsciiUpper c) = true ∧
    sanitizeName (envDbName config) = envDbName config := by
  refine ⟨rfl, ?_, ?_⟩
  · rw [envDbName, sanitizeName_toList, List.all_eq_true]
    intro c hc
    rw [List.mem_map] at hc
    obtain ⟨d, hd, rfl⟩ := hc
    rw [goToLower, List.mem_map] at hd
    obtain ⟨e, _, rfl⟩ := hd
    rw [dashToUnderscore_ne_dash, isAsciiUpper_dashToUnderscore_asciiLower]
    rfl
  · apply String.ext
    show (sanitizeName (envDbName config)).toList = (envDbName config).toList
    rw [sanitizeName_toList, envDbName, sanitizeName_toList]
    unfold goToLower
    simp only [List.map_map]
    apply List.map_congr_left
    intro c _
    show dashToUnderscore (asciiLower (dashToUnderscore (asciiLower c))) =
      dashToUnderscore (asciiLower c)
    rw [asciiLower_eq_self_of_dash_or_lowered, dashToUnderscore_idem]

/-- Model of `filepath.Join a b` for the path shapes the program builds
(`a` non-empty, no trailing slash, `b` a clean relative path). -/
def joinPath (a b : String) : String := a ++ "/" ++ b

/-- One deletion performed by `cleanupFiles`: `os.Remove` when
`recursive = false`, `os.RemoveAll` when `recursive = true`. -/
structure RemovalOp where
  path : String
  recursive : Bool
deriving DecidableEq

/-- The `dbConfigs` map of `cleanupFiles`, database kind to the config file
owned by it.  Go iterates maps in unspecified order; the removals produced
from the entries are order-independent, so the entries are listed in the
order they are written in the source. -/
def dbConfigs (config : ProjectConfig) : List (String × String) :=
  [("mysql", joinPath config.ProjectPath "config/mysql.go"),
   ("postgresql", joinPath config.ProjectPath "config/postgre.go"),
   ("mongodb", joinPath config.ProjectPath "config/mongodb.go")]

/-- First loop of `cleanupFiles`: for every map entry whose kind is not the
selected database, remove its config file, and — whenever that unselected
kind is `mysql` or `postgresql` — also remove `config/gorm.go`. -/
def dbConfigRemovals (config : ProjectConfig) : List RemovalOp :=
  (dbConfigs config).flatMap fun e =>
    if e.1 ≠ config.Database then
      { path := e.2, recursive := false } ::
        (if e.1 = "mysql" ∨ e.1 = "postgresql" then
          [{ path := joinPath config.ProjectPath "config/gorm.go",
             recursive := false }]
         else [])
    else []

/-- The `dbRepos` map of `cleanupFiles`; PostgreSQL points at the same
`internal/repository/mysql` directory as MySQL (they share it via GORM). -/
def dbRepos (config : ProjectConfig) : List (String × String) :=
  [("mysql", joinPath config.ProjectPath "internal/repository/mysql"),
   ("postgresql", joinPath config.ProjectPath "internal/repository/mysql"),
   ("mongodb", joinPath config.ProjectPath "internal/repository/mongodb")]

/-- Second loop of `cleanupFiles`: remove the repository directory of every
unselected kind, except that the `mysql`/`postgresql` pair never deletes the
shared directory when either of the two is selected. -/
def dbRepoRemovals (config : ProjectConfig) : List RemovalOp :=
  (dbRepos config).flatMap fun e =>
    if e.1 ≠ config.Database then
      if (config.Database = "postgresql" ∧ e.1 = "mysql") ∨
          (config.Database = "mysql" ∧ e.1 = "postgresql") then []
      else [{ path := e.2, recursive := true }]
    else []

/-- Tail of `cleanupFiles`: drop the optional service config files that were
not selected. -/
def optionalServiceRemovals (config : ProjectConfig) : List RemovalOp :=
  (if !config.UseRedis then
    [{ path := joinPath config.ProjectPath "config/redis.go",
       recursive := false }]
   else []) ++
  (if !config.UseRabbitMQ then
    [{ path := joinPath config.ProjectPath "config/rabbitmq.go",
       recursive := false }]
   else [])

/-- All deletions performed by one run of `cleanupFiles`. -/
def cleanupRemovals (config : ProjectConfig) : List RemovalOp :=
  dbConfigRemovals config ++ dbRepoRemovals config ++ optionalServiceRemovals config

/-- Whether the deletion `op` erases the filesystem entry `q`:
`os.Remove` erases the exact path, `os.RemoveAll` also erases everything
below it. -/
def removalMatches (op : RemovalOp) (q : String) : Bool :=
  q == op.path || (op.recursive && startsWith (op.path ++ "/").toList q.toList)

/-- Effect of one `os.Remove`/`os.RemoveAll` call on a flat filesystem (a
list of entry paths).  The second component records whether the path
existed — `os.Remove` reports an error for a missing path, a value
`cleanupFiles` discards. -/
def applyRemoval (fs : List String) (op : RemovalOp) : List String × Bool :=
  (fs.filter (fun q => !removalMatches op q), fs.any (removalMatches op))

/-- One run of `cleanupFiles` over a flat filesystem: every deletion is
applied in sequence with its error value discarded, and the function
returns `nil` unconditionally. -/
def cleanupFilesRun (config : ProjectConfig) (fs : List String) :
    List String × Except String Unit :=
  ((cleanupRemovals config).foldl (fun acc op => (applyRemoval acc op).1) fs,
   Except.ok ())

theorem foldl_applyRemoval (ops : List RemovalOp) :
    ∀ fs : List String,
      ops.foldl (fun acc op => (applyRemoval acc op).1) fs =
        fs.filter (fun q => !ops.any (fun op => removalMatches op q)) := by
  induction ops with
  | nil => intro fs; simp
  | cons op ops ih =>
    intro fs
    simp only [List.foldl_cons, List.any_cons]
    rw [show (applyRemoval fs op).1 = fs.filter (fun q => !removalMatches op q) from rfl,
      ih, List.filter_filter]
    apply List.filter_congr
    intro q _
    cases removalMatches op q <;> simp

/-- C8: pruning is best-effort and never fails.  For every configuration
and every filesystem state — entries missing or not — `cleanupFiles`
returns `nil`, and its effect is exactly to drop the entries matched by its
deletion list; a missing path is silently skipped. -/
theorem cleanupFiles_never_fails (config : ProjectConfig) (fs : List String) :
    (cleanupFilesRun config fs).2 = Except.ok () ∧
    (cleanupFilesRun config fs).1 =
      fs.filter (fun q =>
        !(cleanupRemovals config).any (fun op => removalMatches op q)) :=
  ⟨rfl, foldl_applyRemoval (cleanupRemovals config) fs⟩

/-- A demo configuration selecting the MySQL database and no optional
service. -/
def cfgMysqlDemo : ProjectConfig :=
  { ProjectName := "demo", ProjectPath := "demo",
    ModulePath := "example.com/demo", Database := "mysql",
    UseRedis := false, UseRabbitMQ := false }

/-- C1: evaluation of `cleanupFiles` at the failing input
`Database = "mysql"`.  The shared repository directory
`internal/repository/mysql` is correctly kept, but the shared
`config/gorm.go` is deleted even though the selected database needs it:
the loop removes it whenever some *unselected* kind is `mysql` or
`postgresql`, so it is removed for every possible selection. -/
theorem cleanupFiles_removes_gorm_for_mysql :
    "demo/config/gorm.go" ∈ (cleanupRemovals cfgMysqlDemo).map RemovalOp.path ∧
    "demo/internal/repository/mysql" ∉
      (cleanupRemovals cfgMysqlDemo).map RemovalOp.path := by
  decide

/-- One entry presented by `filepath.Walk("template", ...)` to the
`copyTemplate` callback, with its path already made relative to the
template root (`filepath.Rel`); the root itself is skipped by the
callback. -/
inductive WalkEntry where
  | dirEntry (relPath : String) (mode : Nat)
  | fileEntry (relPath : String) (mode : Nat) (content : String)
deriving DecidableEq

/-- One entry of the destination tree produced by `copyTemplate`. -/
inductive DestEntry where
  | dir (path : String) (mode : Nat)
  | file (path : String) (mode : Nat) (content : String)
deriving DecidableEq

/-- The file mode given by `os.Create` (before umask): `0666 = 438`.
`copyFile` opens the destination with `os.Create` and never transfers the
source's permission bits. -/
def createMode : Nat := 438

/-- Destination tree produced by `copyTemplate`: a directory is recreated
under the destination root with `os.MkdirAll(destPath, info.Mode())` —
mode preserved — and a regular file is rewritten through
`copyFile` = `os.Create` + `io.Copy` — content preserved, mode the
`os.Create` default.  (The trailing special case recopies
`template/.gitignore` to the same destination path with the same content,
which adds no new destination entry.) -/
def copyTemplateDest (config : ProjectConfig) (walk : List WalkEntry) :
    List DestEntry :=
  walk.map fun e =>
    match e with
    | .dirEntry rel mode => .dir (joinPath config.ProjectPath rel) mode
    | .fileEntry rel _ content =>
        .file (joinPath config.ProjectPath rel) createMode content

/-- C2 as claimed: every copied regular file keeps the source file's
permission bits. -/
def preservesFileModes (config : ProjectConfig) (walk : List WalkEntry) : Prop :=
  ∀ rel mode content, WalkEntry.fileEntry rel mode content ∈ walk →
    DestEntry.file (joinPath config.ProjectPath rel) mode content ∈
      copyTemplateDest config walk

/-- C2 counterexample: copying a template holding one executable file of
mode `0755 = 493` does not preserve that file's permission bits — the
destination file is created with the `os.Create` default `0666 = 438`. -/
theorem copyTemplate_not_preserving_file_modes :
    ¬ preservesFileModes cfgMysqlDemo [WalkEntry.fileEntry "run.sh" 493 "x"] := by
  intro h
  have hmem := h "run.sh" 493 "x" (by simp)
  simp [copyTemplateDest, createMode] at hmem

/-- C2 (amended): `copyTemplate` recreates every directory and copies every
regular file of the source tree, preserving relative paths (each entry
lands at the destination root joined with its relative path), preserving
directory permission bits and file contents; but every copied file is
created with the fixed `os.Create` mode `0666`, not the source file's
permission bits. -/
theorem copyTemplate_copies_everything (config : ProjectConfig)
    (walk : List WalkEntry) :
    (∀ rel mode, WalkEntry.dirEntry rel mode ∈ walk →
      DestEntry.dir (joinPath config.ProjectPath rel) mode ∈
        copyTemplateDest config walk) ∧
    (∀ rel mode content, WalkEntry.fileEntry rel mode content ∈ walk →
      DestEntry.file (joinPath config.ProjectPath rel) createMode content ∈
        copyTemplateDest config walk) := by
  constructor
  · intro rel mode hmem
    exact List.mem_map_of_mem _ hmem
  · intro rel mode content hmem
    exact List.mem_map_of_mem _ hmem

/-- Witness for `copyTemplate_copies_everything`: a directory of mode
`0755` and a file of content `x` both land under `demo/`. -/
theorem copyTemplate_copies_everything_witness :
    DestEntry.dir (joinPath "demo" "internal") 493 ∈
      copyTemplateDest cfgMysqlDemo
        [WalkEntry.dirEntry "internal" 493,
         WalkEntry.fileEntry "main.go" 420 "x"] ∧
    DestEntry.file (joinPath "demo" "main.go") createMode "x" ∈
      copyTemplateDest cfgMysqlDemo
        [WalkEntry.dirEntry "internal" 493,
         WalkEntry.fileEntry "main.go" 420 "x"] :=
  ⟨(copyTemplate_copies_everything cfgMysqlDemo _).1 "internal" 493 (by simp),
   (copyTemplate_copies_everything cfgMysqlDemo _).2 "main.go" 420 "x" (by simp)⟩

/-- One regular file of the destination tree as seen by the
`updateModulePaths` walk. -/
structure FlatFile where
  path : String
  mode : Nat
  content : String
deriving DecidableEq

/-- Effect of `updateModulePaths` on the destination tree: a file whose
path ends in `.go` or `.mod` has every occurrence of the default module
string replaced by the user's module path and is written back with its
original permissions; every other file is returned unchanged (`return nil`
before the read). -/
def updateModulePathsFs (modulePath : String) (fs : List FlatFile) :
    List FlatFile :=
  fs.map fun f =>
    if goHasSuffix ".go".toList f.path.toList ||
        goHasSuffix ".mod".toList f.path.toList then
      { f with content := rewriteContent modulePath f.content }
    else f

/-- C6: the token rewriter touches only `.go` and `.mod` files — any file
at position `i` whose name has neither suffix is byte-for-byte unchanged
(same path, same mode, same content) after `updateModulePaths`. -/
theorem updateModulePaths_frame (modulePath : String) (fs : List FlatFile)
    (i : Nat) (f : FlatFile) (hf : fs[i]? = some f)
    (hgo : goHasSuffix ".go".toList f.path.toList = false)
    (hmod : goHasSuffix ".mod".toList f.path.toList = false) :
    (updateModulePathsFs modulePath fs)[i]? = some f := by
  unfold updateModulePathsFs
  have hgo2 : goHasSuffix ['.', 'g', 'o'] f.path.data = false := by
    simpa using hgo
  have hmod2 : goHasSuffix ['.', 'm', 'o', 'd'] f.path.data = false := by
    simpa using hmod
  rw [List.getElem?_map, hf, Option.map]
  rw [if_neg (by simp [hgo2, hmod2])]

/-- Witness for `updateModulePaths_frame`: a `README.md` that even contains
the default module string is left untouched. -/
theorem updateModulePaths_frame_witness :
    (updateModulePathsFs "example.com/demo"
      [{ path := "demo/README.md", mode := 420,
         content := "see github.com/rahmatrdn/go-skeleton" }])[0]? =
      some { path := "demo/README.md", mode := 420,
             content := "see github.com/rahmatrdn/go-skeleton" } :=
  updateModulePaths_frame "example.com/demo" _ 0 _ rfl (by decide) (by decide)

/-- The `depends_on` list built by `generateDevcontainerDockerCompose`:
always `db`, then `redis` and `rabbitmq` when selected, rendered one
`      - <dep>` line each. -/
def dependsOnYaml (config : ProjectConfig) : String :=
  String.join ((["db"] ++ (if config.UseRedis then ["redis"] else []) ++
    (if config.UseRabbitMQ then ["rabbitmq"] else [])).map
      fun dep => "      - " ++ dep ++ "\n")

/-- The fixed `app` service header of the generated compose document,
followed by the dynamic `depends_on` list and a blank line. -/
def appBlock (config : ProjectConfig) : String :=
  "services:\n  app:\n    build:\n      context: .\n      dockerfile: Dockerfile\n    volumes:\n      - ..:/workspace:cached\n    command: sleep infinity\n    network_mode: service:db\n    depends_on:\n"
    ++ dependsOnYaml config ++ "\n"

/-- The `db` service block for the `mysql` case of the database switch. -/
def mysqlBlock (dbName : String) : String :=
  "\n  db:\n    image: mysql:8.0\n    restart: unless-stopped\n    environment:\n      MYSQL_ROOT_PASSWORD: root\n      MYSQL_DATABASE: " ++ dbName ++ "\n      MYSQL_USER: " ++ dbName ++ "\n      MYSQL_PASSWORD: " ++ dbName ++ "\n    volumes:\n      - mysql-data:/var/lib/mysql\n    ports:\n      - \"3306:3306\"\n"

/-- The `db` service block for the `postgresql` case of the database
switch. -/
def postgresBlock (dbName : String) : String :=
  "\n  db:\n    image: postgres:15-alpine\n    restart: unless-stopped\n    environment:\n      POSTGRES_USER: postgres\n      POSTGRES_PASSWORD: postgres\n      POSTGRES_DB: " ++ dbName ++ "\n    volumes:\n      - postgres-data:/var/lib/postgresql/data\n    ports:\n      - \"5432:5432\"\n"

/-- The `db` service block for the `mongodb` case of the database switch. -/
def mongoBlock (dbName : String) : String :=
  "\n  db:\n    image: mongo:6\n    restart: unless-stopped\n    environment:\n      MONGO_INITDB_DATABASE: " ++ dbName ++ "\n    volumes:\n      - mongodb-data:/data/db\n    ports:\n      - \"27017:27017\"\n"

/-- The `redis` service block, appended only when Redis is selected. -/
def redisBlock : String :=
  "\n  redis:\n    image: redis:7-alpine\n    restart: unless-stopped\n    command: redis-server --requirepass \"\"\n    volumes:\n      - redis-data:/data\n    ports:\n      - \"6379:6379\"\n"

/-- The `rabbitmq` service block, appended only when RabbitMQ is
selected. -/
def rabbitmqBlock : String :=
  "\n  rabbitmq:\n    image: rabbitmq:3-management-alpine\n    restart: unless-stopped\n    environment:\n      RABBITMQ_DEFAULT_USER: guest\n      RABBITMQ_DEFAULT_PASS: guest\n    volumes:\n      - rabbitmq-data:/var/lib/rabbitmq\n    ports:\n      - \"5672:5672\"\n      - \"15672:15672\"\n"

/-- `generateDevcontainerDockerCompose` from `main.go`: `app` header plus
`depends_on`, one `db` service block chosen by the database switch (an
unknown kind appends nothing, as a Go `switch` without default), optional
`redis`/`rabbitmq` blocks, then the `volumes:` section holding exactly the
volumes of the emitted services. -/
def generateDevcontainerDockerCompose (config : ProjectConfig) : String :=
  appBlock config
    ++ (if config.Database = "mysql" then
          mysqlBlock (sanitizeName config.ProjectName)
        else if config.Database = "postgresql" then
          postgresBlock (sanitizeName config.ProjectName)
        else if config.Database = "mongodb" then
          mongoBlock (sanitizeName config.ProjectName)
        else "")
    ++ (if config.UseRedis then redisBlock else "")
    ++ (if config.UseRabbitMQ then rabbitmqBlock else "")
    ++ "\nvolumes:\n"
    ++ (if config.Database = "mysql" then "  mysql-data:\n"
        else if config.Database = "postgresql" then "  postgres-data:\n"
        else if config.Database = "mongodb" then "  mongodb-data:\n"
        else "")
    ++ (if config.UseRedis then "  redis-data:\n" else "")
    ++ (if config.UseRabbitMQ then "  rabbitmq-data:\n" else "")

/-- A configuration over the claimed option space
{Redis} x {RabbitMQ} x {database}, with the representative project name
`demo` (the project name is not part of the claimed configuration
space). -/
def composeDemoConfig (db : String) (r q : Bool) : ProjectConfig :=
  { ProjectName := "demo", ProjectPath := "./demo",
    ModulePath := "example.com/demo", Database := db,
    UseRedis := r, UseRabbitMQ := q }

set_option maxRecDepth 1000000 in
/-- C4: over all 12 configurations, the generated compose document has a
`redis` service block and a `redis-data` volume entry exactly when Redis is
selected, a `rabbitmq` service block and a `rabbitmq-data` volume entry
exactly when RabbitMQ is selected, and exactly one database volume entry —
the one of the selected database kind; nothing is declared for an
unselected option. -/
theorem compose_services_iff_selected (db : String) (r q : Bool)
    (h : db = "mysql" ∨ db = "postgresql" ∨ db = "mongodb") :
    (hasOccurStr "\n  redis:\n"
      (generateDevcontainerDockerCompose (composeDemoConfig db r q)) = r) ∧
    (hasOccurStr "\n  redis-data:\n"
      (generateDevcontainerDockerCompose (composeDemoConfig db r q)) = r) ∧
    (hasOccurStr "\n  rabbitmq:\n"
      (generateDevcontainerDockerCompose (composeDemoConfig db r q)) = q) ∧
    (hasOccurStr "\n  rabbitmq-data:\n"
      (generateDevcontainerDockerCompose (composeDemoConfig db r q)) = q) ∧
    (hasOccurStr "\n  mysql-data:\n"
      (generateDevcontainerDockerCompose (composeDemoConfig db r q)) =
        (db == "mysql")) ∧
    (hasOccurStr "\n  postgres-data:\n"
      (generateDevcontainerDockerCompose (composeDemoConfig db r q)) =
        (db == "postgresql")) ∧
    (hasOccurStr "\n  mongodb-data:\n"
      (generateDevcontainerDockerCompose (composeDemoConfig db r q)) =
        (db == "mongodb")) := by
  rcases h with rfl | rfl | rfl <;> cases r <;> cases q <;> decide

set_option maxRecDepth 1000000 in
/-- Witness for `compose_services_iff_selected` at
database `mysql`, Redis on, RabbitMQ off. -/
theorem compose_services_iff_selected_witness :
    (hasOccurStr "\n  redis:\n"
      (generateDevcontainerDockerCompose
        (composeDemoConfig "mysql" true false)) = true) ∧
    (hasOccurStr "\n  redis-data:\n"
      (generateDevcontainerDockerCompose
        (composeDemoConfig "mysql" true false)) = true) ∧
    (hasOccurStr "\n  rabbitmq:\n"
      (generateDevcontainerDockerCompose
        (composeDemoConfig "mysql" true false)) = false) ∧
    (hasOccurStr "\n  rabbitmq-data:\n"
      (generateDevcontainerDockerCompose
        (composeDemoConfig "mysql" true false)) = false) ∧
    (hasOccurStr "\n  mysql-data:\n"
      (generateDevcontainerDockerCompose
        (composeDemoConfig "mysql" true false)) = true) ∧
    (hasOccurStr "\n  postgres-data:\n"
      (generateDevcontainerDockerCompose
        (composeDemoConfig "mysql" true false)) = false) ∧
    (hasOccurStr "\n  mongodb-data:\n"
      (generateDevcontainerDockerCompose
        (composeDemoConfig "mysql" true false)) = false) :=
  compose_services_iff_selected "mysql" true false (Or.inl rfl)

/-- A filesystem write or delete the generator can perform. -/
inductive FsOp where
  | mkdirAll (path : String) (mode : Nat)
  | createFile (path : String) (content : String)
  | writeFile (path : String) (content : String) (mode : Nat)
  | remove (path : String)
  | removeAll (path : String)
deriving DecidableEq

/-- The `go.mod` written by `createGoMod`: the user's module path followed
by the fixed dependency block. -/
def goModContent (config : ProjectConfig) : String :=
  "module " ++ config.ModulePath ++
  "\n\ngo 1.24.1\n\nrequire (\n\tgithub.com/DATA-DOG/go-sqlmock v1.5.0\n\tgithub.com/bxcodec/faker v2.0.1+incompatible\n\tgithub.com/go-co-op/gocron/v2 v2.11.0\n\tgithub.com/go-playground/locales v0.14.1\n\tgithub.com/go-playground/universal-translator v0.18.1\n\tgithub.com/go-playground/validator/v10 v10.14.1\n\tgithub.com/gofiber/fiber/v2 v2.52.5\n\tgithub.com/gofiber/swagger v1.1.0\n\tgithub.com/golang-jwt/jwt/v4 v4.5.2\n\tgithub.com/google/uuid v1.6.0\n\tgithub.com/joeshaw/envdecode v0.0.0-20200121155833-099f1fc765bd\n\tgithub.com/pkg/errors v0.9.1\n\tgithub.com/rabbitmq/amqp091-go v1.8.1\n\tgithub.com/redis/go-redis/v9 v9.3.0\n\tgithub.com/stretchr/testify v1.9.0\n\tgithub.com/subosito/gotenv v1.4.2\n\tgithub.com/swaggo/swag v1.16.3\n\tgithub.com/valyala/fasthttp v1.51.0\n\tgo.mongodb.org/mongo-driver v1.11.7\n\tgo.uber.org/zap v1.27.0\n\tgolang.org/x/crypto v0.36.0\n\tgorm.io/driver/mysql v1.5.1\n\tgorm.io/driver/postgres v1.5.9\n\tgorm.io/gorm v1.25.10\n)\n"

/-- `removeLines` from `main.go`: split on newlines, keep the lines not
containing the pattern, join with newlines. -/
def removeLines (content pattern : List Char) : List Char :=
  List.intercalate ['\n']
    ((content.splitOn '\n').filter fun line => !hasOccur pattern line)

/-- Content transformation of `updateConfigFiles` on `config/config.go`:
drop the option lines of every unselected database kind and every
unselected optional service. -/
def updateConfigContent (config : ProjectConfig) (content : List Char) :
    List Char :=
  let s1 := if config.Database ≠ "mysql" then
    removeLines content "MysqlOption".toList else content
  let s2 := if config.Database ≠ "postgresql" then
    removeLines s1 "PostgreSqlOption".toList else s1
  let s3 := if config.Database ≠ "mongodb" then
    removeLines s2 "MongodbOption".toList else s2
  let s4 := if !config.UseRedis then
    removeLines s3 "RedisOption".toList else s3
  if !config.UseRabbitMQ then removeLines s4 "RabbitMQOption".toList else s4

/-- Write operations of `copyTemplate` in walk order: `os.MkdirAll` for a
directory, `os.Create`-backed `copyFile` for a regular file. -/
def copyTemplateOps (config : ProjectConfig) (walk : List WalkEntry) :
    List FsOp :=
  walk.map fun e =>
    match e with
    | .dirEntry rel mode => FsOp.mkdirAll (joinPath config.ProjectPath rel) mode
    | .fileEntry rel _ content =>
        FsOp.createFile (joinPath config.ProjectPath rel) content

/-- The trailing special case of `copyTemplate`: when `template/.gitignore`
exists, copy it (again) to the destination root. -/
def gitignoreOps (config : ProjectConfig) (walk : List WalkEntry) : List FsOp :=
  match walk.find? (fun e =>
    match e with
    | .fileEntry rel _ _ => rel == ".gitignore"
    | _ => false) with
  | some (WalkEntry.fileEntry _ _ content) =>
      [FsOp.createFile (joinPath config.ProjectPath ".gitignore") content]
  | _ => []

/-- The destination tree, as regular files, right after `copyTemplate` and
`createGoMod`: every template file at its joined path with the `os.Create`
mode, plus the generated `go.mod`. -/
def destAfterGoMod (config : ProjectConfig) (walk : List WalkEntry) :
    List FlatFile :=
  (walk.filterMap fun e =>
    match e with
    | .dirEntry _ _ => none
    | .fileEntry rel _ content =>
        some { path := joinPath config.ProjectPath rel,
               mode := createMode, content := content }) ++
  [{ path := joinPath config.ProjectPath "go.mod", mode := 420,
     content := goModContent config }]

/-- Write operations of `updateModulePaths` in walk order: every `.go` or
`.mod` file is written back (with its own mode) holding the rewritten
content. -/
def updateModulePathsOps (modulePath : String) (fs : List FlatFile) :
    List FsOp :=
  fs.filterMap fun f =>
    if goHasSuffix ".go".toList f.path.toList ||
        goHasSuffix ".mod".toList f.path.toList then
      some (FsOp.writeFile f.path (rewriteContent modulePath f.content) f.mode)
    else none

/-- Find the file at `p`, as `os.ReadFile` does on the modelled tree. -/
def lookupFile (fs : List FlatFile) (p : String) : Option FlatFile :=
  fs.find? fun f => f.path == p

/-- Write operations of `updateConfigFiles` and `updateEnvFiles` over the
pruned destination tree `s3`: each step reads its file and writes the
transformed content back with mode `0644`; a missing file aborts (no
further writes). -/
def configEnvOps (config : ProjectConfig) (s3 : List FlatFile) : List FsOp :=
  match lookupFile s3 (joinPath config.ProjectPath "config/config.go") with
  | none => []
  | some f =>
      FsOp.writeFile f.path ⟨updateConfigContent config f.content.toList⟩ 420 ::
        (match lookupFile s3
            (joinPath config.ProjectPath ".devcontainer/.env.devcontainer") with
         | none => []
         | some g => [FsOp.writeFile g.path (updateEnvContent config g.content) 420])

/-- All filesystem writes of one successful `createProject` run, in
program order: project directory, template copy, `go.mod`, module-path
rewrites, pruning, compose generation, config and env patching.  The
intermediate trees `s2` (after the rewrite) and `s3` (after pruning) feed
the later read-modify-write steps. -/
def createProjectOps (config : ProjectConfig) (walk : List WalkEntry) :
    List FsOp :=
  let s1 := destAfterGoMod config walk
  let s2 := updateModulePathsFs config.ModulePath s1
  let s3 := s2.filter fun f =>
    !(cleanupRemovals config).any fun op => removalMatches op f.path
  FsOp.mkdirAll config.ProjectPath 493 ::
    copyTemplateOps config walk ++ gitignoreOps config walk ++
    [FsOp.writeFile (joinPath config.ProjectPath "go.mod")
      (goModContent config) 420] ++
    updateModulePathsOps config.ModulePath s1 ++
    ((cleanupRemovals config).map fun op =>
      if op.recursive then FsOp.removeAll op.path else FsOp.remove op.path) ++
    [FsOp.writeFile
      (joinPath config.ProjectPath ".devcontainer/docker-compose.yml")
      (generateDevcontainerDockerCompose config) 420] ++
    configEnvOps config s3

/-- Filesystem writes of one `main` run, keyed by the final confirmation
answer: `createProject` runs only when `confirm` accepts the answer;
otherwise `main` prints `Cancelled.` and returns with no write performed
(everything before the confirmation only prompts and prints). -/
def mainRunOps (config : ProjectConfig) (walk : List WalkEntry)
    (confirmInput : String) : List FsOp :=
  if confirm confirmInput then createProjectOps config walk else []

/-- C5: answering the final confirmation with `n` performs zero filesystem
writes, for every configuration and every template tree. -/
theorem cancel_performs_no_writes (config : ProjectConfig)
    (walk : List WalkEntry) : mainRunOps config walk "n" = [] := by
  unfold mainRunOps
  rw [if_neg (by decide)]

/-- C3 counterexample: the rewrite of `updateModulePaths` is not idempotent
as claimed.  With the module path `github.com/rahmatrdn/go-skeleton-v2`
(a valid module path having the template's default module string as a
substring), rewriting the template line `module github.com/rahmatrdn/go-skeleton`
once yields `module github.com/rahmatrdn/go-skeleton-v2`, and rewriting that
a second time yields `module github.com/rahmatrdn/go-skeleton-v2-v2`: the
second application changes the content again. -/
theorem rewriteContent_not_idempotent :
    rewriteContent "github.com/rahmatrdn/go-skeleton-v2"
        (rewriteContent "github.com/rahmatrdn/go-skeleton-v2"
          "module github.com/rahmatrdn/go-skeleton\n") ≠
      rewriteContent "github.com/rahmatrdn/go-skeleton-v2"
        "module github.com/rahmatrdn/go-skeleton\n" := by
  decide

/-- C3 (amended): the rewrite of `updateModulePaths` is not idempotent in
general — when the module path contains the default module string as a
substring, a second application can substitute again (see the
counterexample).  Applying the rewrite a second time changes nothing
whenever the once-rewritten content contains no residual occurrence of the
default module string `github.com/rahmatrdn/go-skeleton`. -/
theorem rewriteContent_idempotent_of_no_residual (modulePath content : String)
    (h : hasOccurStr oldModule (rewriteContent modulePath content) = false) :
    rewriteContent modulePath (rewriteContent modulePath content) =
      rewriteContent modulePath content := by
  unfold rewriteContent goReplaceAllStr
  unfold hasOccurStr at h
  exact congrArg String.mk (goReplaceAll_eq_self_of_no_occur _ _ _ h)

/-- Witness for `rewriteContent_idempotent_of_no_residual` at the module
path `example.com/demo`. -/
theorem rewriteContent_idempotent_witness :
    rewriteContent "example.com/demo"
        (rewriteContent "example.com/demo"
          "module github.com/rahmatrdn/go-skeleton\n") =
      rewriteContent "example.com/demo"
        "module github.com/rahmatrdn/go-skeleton\n" :=
  rewriteContent_idempotent_of_no_residual "example.com/demo"
    "module github.com/rahmatrdn/go-skeleton\n" (by decide)
